import Mathlib

/-!
Shallow embedding of the shadow-reconciliation engine of the
`aws-iot-client-py` repository (files `equipment_controller.py`,
`shadow_device_controller.py`, `app.py`), together with theorems settling
the frozen claims about its specification.

Conventions of the embedding:

* JSON payload values (shadow delta / document entries) are modelled by the
  inductive `JValue`; Python dictionaries become association lists in
  insertion order (Python 3 dicts preserve insertion order and have unique
  keys, recorded as `Nodup` hypotheses where it matters).
* GPIO pin state is a total map `Nat → Bool` giving each pin's electrical
  level (`true` = HIGH).  The relays are active-low: level LOW (`false`)
  means the equipment is ON (`is_active = true`), exactly as in
  `equipment_controller.py`.
* `RPi.GPIO.output` is an external effect: the level actually latched by
  the hardware is given by a parameter `we : WriteEffect` (pin, requested
  level ↦ latched level).  The fault-free hardware is `exactHw`.  This
  parametrisation lets the theorems talk about hardware that fails to
  reach the requested state, which the code's read-back verification is
  designed to observe.
* Python exceptions become explicit control flow: `ValueError` raised by
  the equipment controller is `Except.error`, and an `AttributeError`
  raised inside a `try` block makes the embedded function return along the
  corresponding `except` path of the source.
* A "publish" of reported state (`_update_shadow_reported_state`) is
  recorded in the function's result as the payload that was sent; the MQTT
  ack outcome is a `Bool` parameter where a claim depends on it, since the
  source swallows publish failures inside that helper.
-/

namespace AwsIot

/-- JSON values as they appear in shadow delta and document payloads. -/
inductive JValue where
  | null
  | bool (b : Bool)
  | num (n : Int)
  | str (s : String)
  | obj (fields : List (String × JValue))

/-- Python truthiness of a JSON value (`if is_active:` semantics):
`None`, `False`, `0`, `""` and `{}` are falsy, everything else truthy. -/
def truthy : JValue → Bool
  | .null => false
  | .bool b => b
  | .num n => n != 0
  | .str s => s != ""
  | .obj fields => !fields.isEmpty

/-- Dictionary lookup, `d[k]` / `d.get(k)` on an insertion-ordered dict. -/
def jlookup : List (String × JValue) → String → Option JValue
  | [], _ => none
  | (k, v) :: rest, key => if k == key then some v else jlookup rest key

mutual

/-- Python `==` on JSON values: numeric cross-type equality between bools
and numbers (`True == 1`), structural equality elsewhere; two dicts are
equal when they have the same size and every key of the first maps to an
equal value in the second (correct for dicts, whose keys are unique). -/
def pyEq : JValue → JValue → Bool
  | .null, .null => true
  | .bool a, .bool b => a == b
  | .bool a, .num n => (if a then (1 : Int) else 0) == n
  | .num n, .bool a => n == (if a then (1 : Int) else 0)
  | .num a, .num b => a == b
  | .str a, .str b => a == b
  | .obj a, .obj b => a.length == b.length && pyEqFields a b
  | _, _ => false

/-- Helper for `pyEq` on dicts: every field of the first dict has a
`pyEq`-equal value under the same key in the second. -/
def pyEqFields : List (String × JValue) → List (String × JValue) → Bool
  | [], _ => true
  | (k, v) :: rest, b =>
    (match jlookup b k with
     | some w => pyEq v w
     | none => false) && pyEqFields rest b

end

/-- Python `==` lifted to `Option JValue` as returned by `dict.get(k)`:
`none` models Python `None` (`None == None` is `True`, `None == v` is
`False` for any JSON value `v`). -/
def pyEqOpt : Option JValue → Option JValue → Bool
  | none, none => true
  | some a, some b => pyEq a b
  | _, _ => false

/-! ## GPIO hardware model -/

/-- Electrical level of each BCM pin; `true` is HIGH. -/
abbrev GpioState := Nat → Bool

/-- GPIO HIGH level (`GPIO.HIGH`). -/
def gpioHigh : Bool := true

/-- GPIO LOW level (`GPIO.LOW`). -/
def gpioLow : Bool := false

/-- Hardware response to `GPIO.output(pin, lvl)`: the level actually
latched on the pin.  `exactHw` is fault-free hardware; other values model
equipment that fails to reach the requested state. -/
abbrev WriteEffect := Nat → Bool → Bool

/-- Fault-free hardware: every write latches the requested level. -/
def exactHw : WriteEffect := fun _ lvl => lvl

/-- Effect of `GPIO.output(pin, lvl)` on the pin map, under hardware
behaviour `we`. -/
def gpioOutput (we : WriteEffect) (pin : Nat) (lvl : Bool) (s : GpioState) : GpioState :=
  fun p => if p = pin then we pin lvl else s p

/-- State after `_setup_gpio`: both configured pins driven HIGH (OFF for
active-low relays); we model every pin as HIGH initially. -/
def gpioInit : GpioState := fun _ => gpioHigh

/-! ## EquipmentController (`equipment_controller.py`) -/

/-- The `equipment_config` pin table: `blower ↦ 17`, `vibrofeeder ↦ 27`,
anything else is an unknown equipment type. -/
def equipmentPin (k : String) : Option Nat :=
  if k == "blower" then some 17
  else if k == "vibrofeeder" then some 27
  else none

/-- Membership test `equipment_type in ['blower', 'vibrofeeder']` used by
the delta reconciler and the get-shadow handler. -/
def isValidKind (k : String) : Bool :=
  k == "blower" || k == "vibrofeeder"

/-- The domain error message raised by the equipment controller for an
unrecognised equipment type. -/
def unknownKindMsg (k : String) : String :=
  "Unknown equipment type: " ++ k

/-- Embedding of `EquipmentController.get_state`: raises `ValueError` for
an unknown kind, otherwise reads the pin and decodes active-low
(`is_active = (level == LOW)`). -/
def get_state (s : GpioState) (k : String) : Except String Bool :=
  match equipmentPin k with
  | none => .error (unknownKindMsg k)
  | some pin => .ok (s pin == gpioLow)

/-- Embedding of `EquipmentController.set_state`: raises `ValueError` for
an unknown kind, otherwise writes `LOW` for active / `HIGH` for inactive
via `GPIO.output` and returns the read-back actual state obtained through
`get_state`. -/
def set_state (we : WriteEffect) (s : GpioState) (k : String) (is_active : Bool) :
    Except String (GpioState × Bool) :=
  match equipmentPin k with
  | none => .error (unknownKindMsg k)
  | some pin =>
    let lvl := if is_active then gpioLow else gpioHigh
    let s1 := gpioOutput we pin lvl s
    .ok (s1, s1 pin == gpioLow)

/-- Embedding of `EquipmentController.get_all_states`: reads every
configured pin, in the iteration order of `equipment_config`
(`blower`, then `vibrofeeder`). -/
def get_all_states (s : GpioState) : List (String × Bool) :=
  [("blower", s 17 == gpioLow), ("vibrofeeder", s 27 == gpioLow)]

/-! ## ShadowDeviceController (`shadow_device_controller.py`) -/

/-- Reported-state payload sent to the shadow: per-kind verified booleans,
in insertion order, as built by `_process_shadow_delta` /
`update_equipment_state_and_shadow`. -/
abbrev Payload := List (String × Bool)

/-- Pin of a valid equipment kind (only ever applied under an
`isValidKind` guard, mirroring the source where `set_state` is reached
only for keys of `equipment_config`). -/
def pinOf (k : String) : Nat :=
  (equipmentPin k).getD 0

/-- Worker loop of `_process_shadow_delta`: walks the delta dict in
insertion order, skipping keys outside `['blower', 'vibrofeeder']`; for a
valid key it evaluates `desired_state.get('is_active', False)` (an
`AttributeError` on a non-dict payload value is caught by the method's
`try`, aborting the whole batch with no publish), applies
`set_state(kind, desired)` and re-reads via `get_state`, accumulating the
verified value.  After the loop, the accumulated dict is published iff it
is non-empty.  Returns the final pin state and the list of publishes
issued (length 0 or 1). -/
def processDeltaAux (we : WriteEffect) :
    GpioState → List (String × JValue) → Payload → GpioState × List Payload
  | s, [], acc => (s, if acc.isEmpty then [] else [acc])
  | s, (k, v) :: rest, acc =>
    if isValidKind k then
      match v with
      | .obj fields =>
        let desired := truthy ((jlookup fields "is_active").getD (.bool false))
        let lvl := if desired then gpioLow else gpioHigh
        let s1 := gpioOutput we (pinOf k) lvl s
        let verified := s1 (pinOf k) == gpioLow
        processDeltaAux we s1 rest (acc ++ [(k, verified)])
      | _ => (s, [])
    else
      processDeltaAux we s rest acc

/-- Embedding of `_process_shadow_delta(delta_state)`. -/
def process_shadow_delta (we : WriteEffect) (s : GpioState)
    (delta : List (String × JValue)) : GpioState × List Payload :=
  processDeltaAux we s delta []

/-- One attempted reported-state publish: the payload handed to
`_update_shadow_reported_state` and whether the MQTT request was
acknowledged in time (`ok = false` models a timeout or transport error,
which that helper logs and swallows). -/
structure PubAttempt where
  payload : Payload
  ok : Bool

/-- Embedding of `update_equipment_state_and_shadow(equipment_type,
is_active)` — the control-path entry point called from the web app.
`pubOk` is the outcome of the shadow publish (swallowed inside
`_update_shadow_reported_state`, so it cannot affect the result).  For an
unknown kind, `set_state` raises, the `except` branch falls back to
`get_state`, which raises the same `ValueError` again — propagated to the
caller as `Except.error`. -/
def update_equipment_state_and_shadow (we : WriteEffect) (pubOk : Bool)
    (s : GpioState) (k : String) (is_active : Bool) :
    Except String (GpioState × Bool × List PubAttempt) :=
  match set_state we s k is_active with
  | .ok (s1, actual) =>
    .ok (s1, actual, [⟨[(k, actual)], pubOk⟩])
  | .error _ =>
    match get_state s k with
    | .ok v => .ok (s, v, [])
    | .error e => .error e

/-- Embedding of `_sync_shadow_with_hardware` step 1: read all hardware
states via the equipment controller and publish them as reported (step 2
then requests the shadow document; its response is handled separately by
`on_get_shadow_accepted`). -/
def sync_shadow_with_hardware (s : GpioState) : List Payload :=
  [get_all_states s]

/-- Shadow document state as delivered to `_on_get_shadow_accepted`:
optional `desired` and `reported` sections, each a dict of per-kind
payload values. -/
structure ShadowDocState where
  desired : Option (List (String × JValue))
  reported : Option (List (String × JValue))

/-- Loop of `_on_get_shadow_accepted` over `response.state.desired`: for
each valid kind it compares `desired_state.get('is_active')` with
`current_reported.get(kind, {}).get('is_active')` under Python `!=` and,
when they differ, hands `{kind: desired_state}` to
`_process_shadow_delta`.  An `AttributeError` (a non-dict `desired_state`
or reported entry) is caught by the method's `try`, aborting the rest of
the loop while keeping the work already done.  Returns the final state,
all publishes issued, and the kinds handed to the reconciler, in order. -/
def onGetAux (we : WriteEffect) :
    GpioState → List (String × JValue) → List (String × JValue) →
    GpioState × List Payload × List String
  | s, [], _ => (s, [], [])
  | s, (k, dv) :: rest, rep =>
    if isValidKind k then
      match dv, (jlookup rep k).getD (.obj []) with
      | .obj dfs, .obj cfs =>
        if !pyEqOpt (jlookup dfs "is_active") (jlookup cfs "is_active") then
          let r1 := process_shadow_delta we s [(k, dv)]
          let r2 := onGetAux we r1.1 rest rep
          (r2.1, r1.2 ++ r2.2.1, k :: r2.2.2)
        else
          onGetAux we s rest rep
      | _, _ => (s, [], [])
    else
      onGetAux we s rest rep

/-- Embedding of `_on_get_shadow_accepted(response)`: nothing happens
unless `response.state` is present and `response.state.desired` is truthy
(non-`None` and non-empty); `reported or {}` defaults a missing reported
section to the empty dict. -/
def on_get_shadow_accepted (we : WriteEffect) (s : GpioState)
    (doc : Option ShadowDocState) : GpioState × List Payload × List String :=
  match doc with
  | none => (s, [], [])
  | some st =>
    match st.desired with
    | none => (s, [], [])
    | some d =>
      if d.isEmpty then (s, [], [])
      else onGetAux we s d (st.reported.getD [])

/-! ## Application startup (`app.py` + `ShadowDeviceController.start`)

`ShadowDeviceController.start` creates the MQTT client and calls
`client.start()`, which begins an asynchronous connection attempt; it then
sleeps a fixed 5 seconds, starts the heartbeat thread and returns `True`.
The connection-success callback (`_on_connection_success` →
`_initialize_shadow_client`: subscribe, sync step 1, request the shadow
document) runs on the transport thread whenever — if ever — the
connection succeeds: before or after `start` returns.  In `app.py`,
`initialize_shadow_controller` sets `startup_complete = True` exactly when
`start` returned `True`.  The trace below captures the possible orderings:
`clientOk` is whether client creation and `client.start()` raise no
exception, `connEver` whether the connection ever succeeds, and
`connBeforeReturn` whether the success callback completes during the
5-second sleep. -/

/-- Observable startup events of the application. -/
inductive AppEvent where
  | clientStarted
  | subscribed
  | syncPublish
  | getShadowRequested
  | heartbeatStarted
  | readySet
  deriving DecidableEq, Repr

/-- Events of `_initialize_shadow_client` on connection success: subscribe
to the shadow topics, publish current hardware state as reported (step 1),
request the full shadow document (step 2). -/
def connectSeq : List AppEvent :=
  [.subscribed, .syncPublish, .getShadowRequested]

/-- Trace of application startup for one combination of outcomes; `.readySet`
is `startup_complete = True` in `app.py`. -/
def startEvents (clientOk connEver connBeforeReturn : Bool) : List AppEvent :=
  if clientOk then
    [.clientStarted]
      ++ (if connEver && connBeforeReturn then connectSeq else [])
      ++ [.heartbeatStarted, .readySet]
      ++ (if connEver && !connBeforeReturn then connectSeq else [])
  else
    []

/-! ## Concurrent hardware access

`_process_shadow_delta` runs on the MQTT callback thread and
`update_equipment_state_and_shadow` on a Flask request thread
(`app.run(..., threaded=True)`); both drive the same GPIO pins through the
equipment controller, and `shadow_device_controller.py` takes no lock of
any kind around the write-then-verify sequences.  We model each path's
hardware accesses for one kind as a list of atomic GPIO operations and
execute an arbitrary interleaving of the two threads. -/

/-- One atomic GPIO operation. -/
inductive HwOp where
  | write (pin : Nat) (lvl : Bool)
  | read (pin : Nat)
  deriving DecidableEq, Repr

/-- Execute one GPIO operation: a write latches `we pin lvl`, a read
returns the active-low decoded value `(level == LOW)`. -/
def execOp (we : WriteEffect) (s : GpioState) : HwOp → GpioState × Option Bool
  | .write p lvl => (gpioOutput we p lvl s, none)
  | .read p => (s, some (s p == gpioLow))

/-- Run a schedule over two threads of GPIO operations (`true` picks the
first thread's next operation, a pick of an exhausted thread is a no-op);
returns the final pin state and the list of read results of each thread. -/
def runSched (we : WriteEffect) :
    GpioState → List HwOp → List HwOp → List Bool → GpioState × List Bool × List Bool
  | s, _, _, [] => (s, [], [])
  | s, a, b, pick :: sched =>
    if pick then
      match a with
      | [] => runSched we s [] b sched
      | op :: a1 =>
        let r := execOp we s op
        let rest := runSched we r.1 a1 b sched
        (rest.1, r.2.toList ++ rest.2.1, rest.2.2)
    else
      match b with
      | [] => runSched we s a [] sched
      | op :: b1 =>
        let r := execOp we s op
        let rest := runSched we r.1 a b1 sched
        (rest.1, rest.2.1, r.2.toList ++ rest.2.2)

/-- GPIO operations `_process_shadow_delta` performs for one valid kind:
the write and read-back inside `set_state`, then the independent
`get_state` whose result is the published verified value (the last
read). -/
def deltaKindOps (k : String) (desired : Bool) : List HwOp :=
  [.write (pinOf k) (if desired then gpioLow else gpioHigh),
   .read (pinOf k), .read (pinOf k)]

/-- GPIO operations `update_equipment_state_and_shadow` performs for one
valid kind via `set_state`: write, then the read-back whose result is both
returned to the caller and published (the last read). -/
def controlOps (k : String) (desired : Bool) : List HwOp :=
  [.write (pinOf k) (if desired then gpioLow else gpioHigh),
   .read (pinOf k)]

/-! ## Small definitions used to state the claims -/

/-- Whether a JSON value is a dict (the only values carrying `.get`). -/
def isObj : JValue → Bool
  | .obj _ => true
  | _ => false

/-- Python `v.get('is_active')` for a dict value, `none` otherwise. -/
def jgetIsActive : JValue → Option JValue
  | .obj fs => jlookup fs "is_active"
  | _ => none

/-- The condition under which `_on_get_shadow_accepted` hands a desired
entry to the reconciler: valid kind whose `is_active` differs (Python `!=`
with `None` for absent) from the reported entry's `is_active`, a missing
reported entry defaulting to the empty dict. -/
def desiredDiffers (rep : List (String × JValue)) (kv : String × JValue) : Bool :=
  isValidKind kv.1 &&
    !pyEqOpt (jgetIsActive kv.2) (jgetIsActive ((jlookup rep kv.1).getD (.obj [])))

/-- A one-key delta `{k: {"is_active": d}}`. -/
def singleDelta (k : String) (d : Bool) : List (String × JValue) :=
  [(k, .obj [("is_active", .bool d)])]

/-- Requested GPIO level for a delta entry's dict payload: the truthiness
of `fields.get('is_active', False)`, encoded active-low. -/
def lvlOfFields (fields : List (String × JValue)) : Bool :=
  if truthy ((jlookup fields "is_active").getD (.bool false)) then gpioLow else gpioHigh

/-- The spec's worked example: desired section
`{blower: true, vibrofeeder: false}`. -/
def exampleDesired : List (String × JValue) :=
  [("blower", .obj [("is_active", .bool true)]),
   ("vibrofeeder", .obj [("is_active", .bool false)])]

/-- The spec's worked example: reported section
`{blower: true, vibrofeeder: true}`. -/
def exampleReported : List (String × JValue) :=
  [("blower", .obj [("is_active", .bool true)]),
   ("vibrofeeder", .obj [("is_active", .bool true)])]

/-! ## Helper lemmas -/

theorem isValidKind_cases {k : String} (h : isValidKind k = true) :
    k = "blower" ∨ k = "vibrofeeder" := by
  simpa [isValidKind] using h

theorem equipmentPin_of_invalid {k : String} (h : isValidKind k = false) :
    equipmentPin k = none := by
  simp [isValidKind] at h
  simp [equipmentPin, h.1, h.2]

theorem equipmentPin_of_valid {k : String} (h : isValidKind k = true) :
    equipmentPin k = some (pinOf k) := by
  rcases isValidKind_cases h with rfl | rfl <;> rfl

theorem pinOf_inj {k1 k2 : String} (h1 : isValidKind k1 = true)
    (h2 : isValidKind k2 = true) (hne : k1 ≠ k2) : pinOf k1 ≠ pinOf k2 := by
  rcases isValidKind_cases h1 with rfl | rfl <;>
    rcases isValidKind_cases h2 with rfl | rfl <;>
      simp_all [pinOf, equipmentPin]

theorem gpioOutput_same (we : WriteEffect) (pin : Nat) (l : Bool) (s : GpioState) :
    gpioOutput we pin l s pin = we pin l := by
  simp [gpioOutput]

theorem gpioOutput_other {p pin : Nat} (we : WriteEffect) (l : Bool) (s : GpioState)
    (h : p ≠ pin) : gpioOutput we pin l s p = s p := by
  simp [gpioOutput, h]

theorem gpioOutput_overwrite (we : WriteEffect) (pin : Nat) (l l' : Bool) (s : GpioState) :
    gpioOutput we pin l (gpioOutput we pin l' s) = gpioOutput we pin l s := by
  funext p
  by_cases h : p = pin <;> simp [gpioOutput, h]

theorem jlookup_mem_self {l : List (String × JValue)} {k : String} {v : JValue}
    (h : jlookup l k = some v) : (k, v) ∈ l := by
  induction l with
  | nil => simp [jlookup] at h
  | cons kv rest ih =>
    obtain ⟨k', v'⟩ := kv
    by_cases hk : k' = k
    · subst hk
      simp [jlookup] at h
      simp [h]
    · simp [jlookup, hk] at h
      exact List.mem_cons_of_mem _ (ih h)

theorem processDeltaAux_nil (we : WriteEffect) (s : GpioState) (acc : Payload) :
    processDeltaAux we s [] acc = (s, if acc.isEmpty then [] else [acc]) := rfl

theorem processDeltaAux_cons_invalid (we : WriteEffect) (s : GpioState) (k : String)
    (v : JValue) (rest : List (String × JValue)) (acc : Payload)
    (h : isValidKind k = false) :
    processDeltaAux we s ((k, v) :: rest) acc = processDeltaAux we s rest acc := by
  simp [processDeltaAux, h]

theorem processDeltaAux_cons_obj (we : WriteEffect) (s : GpioState) (k : String)
    (fields : List (String × JValue)) (rest : List (String × JValue)) (acc : Payload)
    (h : isValidKind k = true) :
    processDeltaAux we s ((k, .obj fields) :: rest) acc
      = processDeltaAux we (gpioOutput we (pinOf k) (lvlOfFields fields) s) rest
          (acc ++ [(k, gpioOutput we (pinOf k) (lvlOfFields fields) s (pinOf k) == gpioLow)]) := by
  simp [processDeltaAux, h, lvlOfFields]

theorem processDeltaAux_cons_malformed (we : WriteEffect) (s : GpioState) (k : String)
    (v : JValue) (rest : List (String × JValue)) (acc : Payload)
    (h : isValidKind k = true) (hv : isObj v = false) :
    processDeltaAux we s ((k, v) :: rest) acc = (s, []) := by
  cases v <;> simp_all [processDeltaAux, isObj]

theorem update_invalid_error (we : WriteEffect) (pubOk : Bool) (s : GpioState)
    (k : String) (d : Bool) (h : isValidKind k = false) :
    update_equipment_state_and_shadow we pubOk s k d = .error (unknownKindMsg k) := by
  have hp := equipmentPin_of_invalid h
  simp [update_equipment_state_and_shadow, set_state, get_state, hp]

theorem update_valid_eq (we : WriteEffect) (pubOk : Bool) (s : GpioState)
    (k : String) (d : Bool) (h : isValidKind k = true) :
    update_equipment_state_and_shadow we pubOk s k d
      = .ok (gpioOutput we (pinOf k) (if d then gpioLow else gpioHigh) s,
             gpioOutput we (pinOf k) (if d then gpioLow else gpioHigh) s (pinOf k) == gpioLow,
             [⟨[(k, gpioOutput we (pinOf k) (if d then gpioLow else gpioHigh) s (pinOf k)
                    == gpioLow)], pubOk⟩]) := by
  have hp := equipmentPin_of_valid h
  simp [update_equipment_state_and_shadow, set_state, hp]

theorem process_singleDelta (we : WriteEffect) (s : GpioState) (k : String) (d : Bool)
    (h : isValidKind k = true) :
    process_shadow_delta we s (singleDelta k d)
      = (gpioOutput we (pinOf k) (if d then gpioLow else gpioHigh) s,
         [[(k, we (pinOf k) (if d then gpioLow else gpioHigh) == gpioLow)]]) := by
  simp [process_shadow_delta, singleDelta, processDeltaAux, h, jlookup, truthy,
    gpioOutput_same]

theorem processDeltaAux_state_off (we : WriteEffect) (p : Nat) :
    ∀ (delta : List (String × JValue)) (s : GpioState) (acc : Payload),
      (∀ kv ∈ delta, isValidKind kv.1 = true → pinOf kv.1 ≠ p) →
      (processDeltaAux we s delta acc).1 p = s p := by
  intro delta
  induction delta with
  | nil => intro s acc _h; rfl
  | cons kv rest ih =>
    intro s acc h
    obtain ⟨k, v⟩ := kv
    by_cases hk : isValidKind k = true
    · cases v with
      | obj fields =>
        rw [processDeltaAux_cons_obj we s k fields rest acc hk,
          ih _ _ (fun kv hm hkv => h kv (List.mem_cons_of_mem _ hm) hkv)]
        exact gpioOutput_other we _ s
          (Ne.symm (h (k, JValue.obj fields) (List.mem_cons_self _ _) hk))
      | null => rw [processDeltaAux_cons_malformed we s k JValue.null rest acc hk rfl]
      | bool b => rw [processDeltaAux_cons_malformed we s k (JValue.bool b) rest acc hk rfl]
      | num n => rw [processDeltaAux_cons_malformed we s k (JValue.num n) rest acc hk rfl]
      | str t => rw [processDeltaAux_cons_malformed we s k (JValue.str t) rest acc hk rfl]
    · have hk' : isValidKind k = false := by simpa using hk
      rw [processDeltaAux_cons_invalid we s k v rest acc hk']
      exact ih _ _ (fun kv hm hkv => h kv (List.mem_cons_of_mem _ hm) hkv)

theorem processDeltaAux_len (we : WriteEffect) :
    ∀ (delta : List (String × JValue)) (s : GpioState) (acc : Payload),
      ((processDeltaAux we s delta acc).2).length ≤ 1 := by
  intro delta
  induction delta with
  | nil =>
    intro s acc
    rw [processDeltaAux_nil]
    by_cases h : acc.isEmpty <;> simp [h]
  | cons kv rest ih =>
    intro s acc
    obtain ⟨k, v⟩ := kv
    by_cases hk : isValidKind k = true
    · cases v with
      | obj fields => rw [processDeltaAux_cons_obj we s k fields rest acc hk]; exact ih _ _
      | null => rw [processDeltaAux_cons_malformed we s k JValue.null rest acc hk rfl]; simp
      | bool b => rw [processDeltaAux_cons_malformed we s k (JValue.bool b) rest acc hk rfl]; simp
      | num n => rw [processDeltaAux_cons_malformed we s k (JValue.num n) rest acc hk rfl]; simp
      | str t => rw [processDeltaAux_cons_malformed we s k (JValue.str t) rest acc hk rfl]; simp
    · have hk' : isValidKind k = false := by simpa using hk
      rw [processDeltaAux_cons_invalid we s k v rest acc hk']
      exact ih _ _

theorem processDeltaAux_noValid (we : WriteEffect) :
    ∀ (delta : List (String × JValue)) (s : GpioState) (acc : Payload),
      (∀ kv ∈ delta, isValidKind kv.1 = false) →
      (processDeltaAux we s delta acc).2 = if acc.isEmpty then [] else [acc] := by
  intro delta
  induction delta with
  | nil => intro s acc _h; rw [processDeltaAux_nil]
  | cons kv rest ih =>
    intro s acc h
    obtain ⟨k, v⟩ := kv
    rw [processDeltaAux_cons_invalid we s k v rest acc (h (k, v) (List.mem_cons_self _ _))]
    exact ih _ _ (fun kv hm => h kv (List.mem_cons_of_mem _ hm))

theorem processDeltaAux_keys (we : WriteEffect) :
    ∀ (delta : List (String × JValue)) (s : GpioState) (acc : Payload),
      (∀ kv ∈ delta, isValidKind kv.1 = true → isObj kv.2 = true) →
      ((processDeltaAux we s delta acc).2).map (List.map Prod.fst)
        = (if (acc.map Prod.fst
              ++ (delta.map Prod.fst).filter (fun k => isValidKind k)).isEmpty
           then []
           else [acc.map Prod.fst
              ++ (delta.map Prod.fst).filter (fun k => isValidKind k)]) := by
  intro delta
  induction delta with
  | nil =>
    intro s acc _h
    rw [processDeltaAux_nil]
    cases acc with
    | nil => simp
    | cons a acc1 => simp
  | cons kv rest ih =>
    intro s acc hwf
    obtain ⟨k, v⟩ := kv
    by_cases hk : isValidKind k = true
    · cases v with
      | obj fields =>
        rw [processDeltaAux_cons_obj we s k fields rest acc hk]
        rw [ih _ _ (fun kv hm hv => hwf kv (List.mem_cons_of_mem _ hm) hv)]
        simp [hk, List.filter_cons, List.append_assoc]
      | null => exact absurd (hwf (k, .null) (List.mem_cons_self _ _) hk) (by simp [isObj])
      | bool b => exact absurd (hwf (k, .bool b) (List.mem_cons_self _ _) hk) (by simp [isObj])
      | num n => exact absurd (hwf (k, .num n) (List.mem_cons_self _ _) hk) (by simp [isObj])
      | str t => exact absurd (hwf (k, .str t) (List.mem_cons_self _ _) hk) (by simp [isObj])
    · have hk' : isValidKind k = false := by simpa using hk
      rw [processDeltaAux_cons_invalid we s k v rest acc hk']
      rw [ih _ _ (fun kv hm hv => hwf kv (List.mem_cons_of_mem _ hm) hv)]
      have hfil : (((k, v) :: rest).map Prod.fst).filter (fun k2 => isValidKind k2)
          = (rest.map Prod.fst).filter (fun k2 => isValidKind k2) := by
        simp [hk']
      rw [hfil]

theorem processDeltaAux_readback (we : WriteEffect) :
    ∀ (delta : List (String × JValue)) (s : GpioState) (acc : Payload),
      ((acc.map Prod.fst) ++ delta.map Prod.fst).Nodup →
      (∀ kb ∈ acc, isValidKind kb.1 = true ∧ get_state s kb.1 = .ok kb.2) →
      ∀ pay ∈ (processDeltaAux we s delta acc).2, ∀ kb ∈ pay,
        get_state (processDeltaAux we s delta acc).1 kb.1 = .ok kb.2 := by
  intro delta
  induction delta with
  | nil =>
    intro s acc _hnd hacc pay hpay kb hkb
    rw [processDeltaAux_nil] at hpay ⊢
    by_cases he : acc.isEmpty
    · simp [he] at hpay
    · simp [he] at hpay
      subst hpay
      exact (hacc kb hkb).2
  | cons kv rest ih =>
    intro s acc hnd hacc pay hpay kb hkb
    obtain ⟨k, v⟩ := kv
    by_cases hk : isValidKind k = true
    · cases v with
      | obj fields =>
        rw [processDeltaAux_cons_obj we s k fields rest acc hk] at hpay ⊢
        refine ih _ _ ?_ ?_ pay hpay kb hkb
        · simp only [List.map_append, List.map_cons, List.map_nil] at hnd ⊢
          rw [← List.append_cons]
          exact hnd
        · intro kb' hkb'
          rcases List.mem_append.mp hkb' with hin | hin
          · have h1 := hacc kb' hin
            refine ⟨h1.1, ?_⟩
            have hne : kb'.1 ≠ k := by
              intro he
              simp only [List.map_cons] at hnd
              have hdisj := (List.nodup_append.mp hnd).2.2
              exact hdisj (List.mem_map_of_mem Prod.fst hin)
                (he ▸ List.mem_cons_self _ _)
            have hpne : pinOf kb'.1 ≠ pinOf k := pinOf_inj h1.1 hk hne
            have h2 := h1.2
            simp only [get_state, equipmentPin_of_valid h1.1] at h2 ⊢
            rw [gpioOutput_other we _ s (Ne.symm (Ne.symm hpne))]
            exact h2
          · simp at hin
            rw [hin]
            refine ⟨hk, ?_⟩
            simp [get_state, equipmentPin_of_valid hk]
      | null => rw [processDeltaAux_cons_malformed we s k JValue.null rest acc hk rfl] at hpay; simp at hpay
      | bool b => rw [processDeltaAux_cons_malformed we s k (JValue.bool b) rest acc hk rfl] at hpay; simp at hpay
      | num n => rw [processDeltaAux_cons_malformed we s k (JValue.num n) rest acc hk rfl] at hpay; simp at hpay
      | str t => rw [processDeltaAux_cons_malformed we s k (JValue.str t) rest acc hk rfl] at hpay; simp at hpay
    · have hk' : isValidKind k = false := by simpa using hk
      rw [processDeltaAux_cons_invalid we s k v rest acc hk'] at hpay ⊢
      refine ih _ _ ?_ hacc pay hpay kb hkb
      simp only [List.map_cons] at hnd
      have h3 := List.nodup_append.mp hnd
      exact List.nodup_append.mpr
        ⟨h3.1, h3.2.1.of_cons, fun a ha hb => h3.2.2 ha (List.mem_cons_of_mem _ hb)⟩

theorem processDeltaAux_applies (we : WriteEffect) :
    ∀ (delta : List (String × JValue)) (s : GpioState) (acc : Payload),
      (∀ kv ∈ delta, isValidKind kv.1 = true → isObj kv.2 = true) →
      (delta.map Prod.fst).Nodup →
      ∀ kv ∈ delta, ∀ fields, kv.2 = JValue.obj fields → isValidKind kv.1 = true →
        (processDeltaAux we s delta acc).1 (pinOf kv.1)
          = we (pinOf kv.1) (lvlOfFields fields) := by
  intro delta
  induction delta with
  | nil => intro s acc _ _ kv hkv; simp at hkv
  | cons hd rest ih =>
    intro s acc hwf hnd kv hkv fields hf hv
    obtain ⟨k, v⟩ := hd
    rcases List.mem_cons.mp hkv with rfl | hmem
    · simp only at hf hv
      subst hf
      rw [processDeltaAux_cons_obj we s k fields rest acc hv]
      rw [processDeltaAux_state_off we _ rest _ _ ?_]
      · exact gpioOutput_same we _ _ s
      · intro kv' hm hv'
        have hnd2 : (k :: rest.map Prod.fst).Nodup := hnd
        have hne : kv'.1 ≠ k := by
          intro he
          apply (List.nodup_cons.mp hnd2).1
          exact he ▸ List.mem_map_of_mem Prod.fst hm
        exact pinOf_inj hv' hv hne
    · by_cases hk : isValidKind k = true
      · have hobj := hwf (k, v) (List.mem_cons_self _ _) hk
        cases v with
        | obj fields2 =>
          rw [processDeltaAux_cons_obj we s k fields2 rest acc hk]
          exact ih _ _ (fun kv hm hv2 => hwf kv (List.mem_cons_of_mem _ hm) hv2)
            (List.Nodup.of_cons (show (k :: rest.map Prod.fst).Nodup from hnd))
            kv hmem fields hf hv
        | null => simp [isObj] at hobj
        | bool b => simp [isObj] at hobj
        | num n => simp [isObj] at hobj
        | str t => simp [isObj] at hobj
      · have hk' : isValidKind k = false := by simpa using hk
        rw [processDeltaAux_cons_invalid we s k v rest acc hk']
        exact ih _ _ (fun kv hm hv2 => hwf kv (List.mem_cons_of_mem _ hm) hv2)
          (List.Nodup.of_cons (show (k :: rest.map Prod.fst).Nodup from hnd))
          kv hmem fields hf hv

theorem onGetAux_cons_invalid (we : WriteEffect) (s : GpioState) (k : String)
    (dv : JValue) (rest rep : List (String × JValue)) (h : isValidKind k = false) :
    onGetAux we s ((k, dv) :: rest) rep = onGetAux we s rest rep := by
  simp [onGetAux, h]

theorem onGetAux_cons_differs (we : WriteEffect) (s : GpioState) (k : String)
    (dfs cfs : List (String × JValue)) (rest rep : List (String × JValue))
    (h : isValidKind k = true)
    (hcfs : (jlookup rep k).getD (.obj []) = JValue.obj cfs)
    (hdiff : pyEqOpt (jlookup dfs "is_active") (jlookup cfs "is_active") = false) :
    onGetAux we s ((k, JValue.obj dfs) :: rest) rep
      = ((onGetAux we (process_shadow_delta we s [(k, JValue.obj dfs)]).1 rest rep).1,
         (process_shadow_delta we s [(k, JValue.obj dfs)]).2
           ++ (onGetAux we (process_shadow_delta we s [(k, JValue.obj dfs)]).1 rest rep).2.1,
         k :: (onGetAux we (process_shadow_delta we s [(k, JValue.obj dfs)]).1 rest rep).2.2) := by
  simp [onGetAux, h, hcfs, hdiff]

theorem onGetAux_cons_same (we : WriteEffect) (s : GpioState) (k : String)
    (dfs cfs : List (String × JValue)) (rest rep : List (String × JValue))
    (h : isValidKind k = true)
    (hcfs : (jlookup rep k).getD (.obj []) = JValue.obj cfs)
    (hdiff : pyEqOpt (jlookup dfs "is_active") (jlookup cfs "is_active") = true) :
    onGetAux we s ((k, JValue.obj dfs) :: rest) rep = onGetAux we s rest rep := by
  simp [onGetAux, h, hcfs, hdiff]

theorem onGetAux_triggered (we : WriteEffect) :
    ∀ (desired : List (String × JValue)) (s : GpioState) (rep : List (String × JValue)),
      (∀ kv ∈ desired, isValidKind kv.1 = true → isObj kv.2 = true) →
      (∀ kv ∈ rep, isValidKind kv.1 = true → isObj kv.2 = true) →
      (onGetAux we s desired rep).2.2
        = (desired.filter (desiredDiffers rep)).map Prod.fst := by
  intro desired
  induction desired with
  | nil => intro s rep _ _; rfl
  | cons kv rest ih =>
    intro s rep hdes hrep
    obtain ⟨k, dv⟩ := kv
    by_cases hk : isValidKind k = true
    · have hobj := hdes (k, dv) (List.mem_cons_self _ _) hk
      cases dv with
      | obj dfs =>
        have hcur : ∃ cfs, (jlookup rep k).getD (.obj []) = JValue.obj cfs := by
          cases hl : jlookup rep k with
          | none => exact ⟨[], rfl⟩
          | some w =>
            have hw := hrep (k, w) (jlookup_mem_self hl) hk
            cases w with
            | obj cfs => exact ⟨cfs, by simp⟩
            | null => simp [isObj] at hw
            | bool b => simp [isObj] at hw
            | num n => simp [isObj] at hw
            | str t => simp [isObj] at hw
        obtain ⟨cfs, hcfs⟩ := hcur
        have hrest := ih (process_shadow_delta we s [(k, JValue.obj dfs)]).1 rep
          (fun kv hm hv => hdes kv (List.mem_cons_of_mem _ hm) hv) hrep
        have hrest2 := ih s rep
          (fun kv hm hv => hdes kv (List.mem_cons_of_mem _ hm) hv) hrep
        by_cases hdiff : pyEqOpt (jlookup dfs "is_active") (jlookup cfs "is_active") = true
        · rw [onGetAux_cons_same we s k dfs cfs rest rep hk hcfs hdiff, hrest2]
          have hfil : desiredDiffers rep (k, JValue.obj dfs) = false := by
            simp [desiredDiffers, jgetIsActive, hcfs, hdiff]
          simp [List.filter_cons, hfil]
        · have hdiff' : pyEqOpt (jlookup dfs "is_active") (jlookup cfs "is_active") = false := by
            simpa using hdiff
          rw [onGetAux_cons_differs we s k dfs cfs rest rep hk hcfs hdiff']
          have hfil : desiredDiffers rep (k, JValue.obj dfs) = true := by
            simp [desiredDiffers, jgetIsActive, hcfs, hdiff', hk]
          simp only [List.filter_cons, hfil, if_true, List.map_cons]
          simpa using hrest
      | null => simp [isObj] at hobj
      | bool b => simp [isObj] at hobj
      | num n => simp [isObj] at hobj
      | str t => simp [isObj] at hobj
    · have hk' : isValidKind k = false := by simpa using hk
      rw [onGetAux_cons_invalid we s k dv rest rep hk']
      rw [ih s rep (fun kv hm hv => hdes kv (List.mem_cons_of_mem _ hm) hv) hrep]
      have hfil : desiredDiffers rep (k, dv) = false := by
        simp [desiredDiffers, hk']
      simp [List.filter_cons, hfil]

/-! ## Claim theorems -/

/-- C10: for every equipment identifier outside {blower, vibrofeeder} and
every desired boolean, `update_equipment_state_and_shadow` raises the
domain error (`ValueError`) to its caller rather than returning a boolean:
`set_state` raises, and the `except` handler's fallback `get_state` raises
the same error again. -/
theorem C10_invalid_kind_raises (we : WriteEffect) (pubOk : Bool) (s : GpioState)
    (k : String) (d : Bool) (h : isValidKind k = false) :
    update_equipment_state_and_shadow we pubOk s k d = .error (unknownKindMsg k) :=
  update_invalid_error we pubOk s k d h

/-- Witness for C10 at the concrete invalid kind `"pump"`. -/
theorem C10_invalid_kind_raises_witness :
    isValidKind "pump" = false ∧
      update_equipment_state_and_shadow exactHw true gpioInit "pump" true
        = .error (unknownKindMsg "pump") :=
  ⟨by decide, C10_invalid_kind_raises exactHw true gpioInit "pump" true (by decide)⟩

/-- C2: for every valid kind and desired boolean, the control-path
operation applies the change, reads it back, and returns the verified
actual value — the value `get_state` observes on the resulting state — and
this result is the same whether the shadow publish succeeds (`pubOk =
true`) or fails/times out (`pubOk = false`). -/
theorem C2_set_and_report (we : WriteEffect) (s : GpioState) (k : String) (d : Bool)
    (h : isValidKind k = true) :
    ∃ s1 a,
      (∀ pubOk, update_equipment_state_and_shadow we pubOk s k d
          = .ok (s1, a, [⟨[(k, a)], pubOk⟩])) ∧
      get_state s1 k = .ok a := by
  refine ⟨gpioOutput we (pinOf k) (if d then gpioLow else gpioHigh) s,
    gpioOutput we (pinOf k) (if d then gpioLow else gpioHigh) s (pinOf k) == gpioLow,
    fun pubOk => update_valid_eq we pubOk s k d h, ?_⟩
  simp [get_state, equipmentPin_of_valid h]

/-- Witness for C2 at `blower`, desired `true`, fault-free hardware. -/
theorem C2_set_and_report_witness :
    isValidKind "blower" = true ∧
      ∃ s1 a,
        (∀ pubOk, update_equipment_state_and_shadow exactHw pubOk gpioInit "blower" true
            = .ok (s1, a, [⟨[("blower", a)], pubOk⟩])) ∧
        get_state s1 "blower" = .ok a :=
  ⟨by decide, C2_set_and_report exactHw gpioInit "blower" true (by decide)⟩

/-- C9: processing the same one-key delta twice is idempotent — the second
run returns exactly the first run's state and the identical publish, for
every hardware behaviour `we` (the latched level depends only on the pin
and the requested level). -/
theorem C9_idempotent (we : WriteEffect) (s : GpioState) (k : String) (d : Bool)
    (h : isValidKind k = true) :
    process_shadow_delta we (process_shadow_delta we s (singleDelta k d)).1 (singleDelta k d)
      = process_shadow_delta we s (singleDelta k d) := by
  rw [process_singleDelta we s k d h]
  rw [process_singleDelta we _ k d h]
  simp [gpioOutput_overwrite]

/-- C8: processing one delta batch issues at most one reported-state
publish (even when an exception aborts the batch); a batch with no valid
key publishes nothing; and on well-formed payloads all verified keys are
accumulated into a single publish whose keys are exactly the valid keys of
the delta — never one publish per key. -/
theorem C8_single_batched_publish (we : WriteEffect) (s : GpioState)
    (delta : List (String × JValue)) :
    ((process_shadow_delta we s delta).2).length ≤ 1 ∧
    ((∀ kv ∈ delta, isValidKind kv.1 = false) →
      (process_shadow_delta we s delta).2 = []) ∧
    ((∀ kv ∈ delta, isValidKind kv.1 = true → isObj kv.2 = true) →
      ((process_shadow_delta we s delta).2).map (List.map Prod.fst)
        = if ((delta.map Prod.fst).filter (fun k => isValidKind k)).isEmpty then []
          else [(delta.map Prod.fst).filter (fun k => isValidKind k)]) := by
  refine ⟨processDeltaAux_len we delta s [], fun h => ?_, fun h => ?_⟩
  · have hnv := processDeltaAux_noValid we delta s [] h
    simpa [process_shadow_delta] using hnv
  · have hkeys := processDeltaAux_keys we delta s [] h
    simpa [process_shadow_delta] using hkeys

/-- Witness for C8: a batch with one valid and one invalid key publishes
once with exactly the valid key; a batch of only invalid keys publishes
nothing. -/
theorem C8_single_batched_publish_witness :
    ((process_shadow_delta exactHw gpioInit
        [("blower", JValue.obj [("is_active", JValue.bool true)]),
         ("foo", JValue.null)]).2).length ≤ 1 ∧
    (process_shadow_delta exactHw gpioInit [("foo", JValue.null)]).2 = [] ∧
    ((process_shadow_delta exactHw gpioInit
        [("blower", JValue.obj [("is_active", JValue.bool true)]),
         ("foo", JValue.null)]).2).map (List.map Prod.fst) = [["blower"]] := by
  refine ⟨(C8_single_batched_publish exactHw gpioInit _).1, ?_, ?_⟩
  · exact (C8_single_batched_publish exactHw gpioInit _).2.1 (by decide)
  · have h := (C8_single_batched_publish exactHw gpioInit
      [("blower", JValue.obj [("is_active", JValue.bool true)]),
       ("foo", JValue.null)]).2.2 (by decide)
    rw [h]
    decide

/-- C1: every per-kind value in a reported-state publish — from a delta
batch, from startup sync, or from the control-path entry point — equals
the value `get_state` reads back from the (possibly faulty) hardware state
left by the writes; the engine never publishes the requested desired value
without such a read-back. -/
theorem C1_reported_equals_readback (we : WriteEffect) (pubOk : Bool) (s : GpioState) :
    (∀ delta, (delta.map Prod.fst).Nodup →
      ∀ pay ∈ (process_shadow_delta we s delta).2, ∀ kb ∈ pay,
        get_state (process_shadow_delta we s delta).1 kb.1 = .ok kb.2) ∧
    (∀ pay ∈ sync_shadow_with_hardware s, ∀ kb ∈ pay, get_state s kb.1 = .ok kb.2) ∧
    (∀ k d s1 a tr, update_equipment_state_and_shadow we pubOk s k d = .ok (s1, a, tr) →
      ∀ att ∈ tr, ∀ kb ∈ att.payload, get_state s1 kb.1 = .ok kb.2) := by
  refine ⟨?_, ?_, ?_⟩
  · intro delta hnd pay hpay kb hkb
    exact processDeltaAux_readback we delta s [] (by simpa using hnd)
      (by intro kb hkb; simp at hkb) pay hpay kb hkb
  · intro pay hpay kb hkb
    simp [sync_shadow_with_hardware] at hpay
    subst hpay
    simp [get_all_states] at hkb
    rcases hkb with h | h <;> rw [h] <;> rfl
  · intro k d s1 a tr h att hatt kb hkb
    by_cases hk : isValidKind k = true
    · rw [update_valid_eq we pubOk s k d hk] at h
      simp only [Except.ok.injEq, Prod.mk.injEq] at h
      obtain ⟨h1, h2, h3⟩ := h
      subst h1; subst h2; subst h3
      simp at hatt
      rw [hatt] at hkb
      simp at hkb
      rw [hkb]
      simp [get_state, equipmentPin_of_valid hk]
    · rw [update_invalid_error we pubOk s k d (by simpa using hk)] at h
      exact absurd h (by simp)

/-- Witness for C1 (delta part) at a one-key delta with fault-free
hardware. -/
theorem C1_reported_equals_readback_witness :
    ((singleDelta "blower" true).map Prod.fst).Nodup ∧
    (∀ pay ∈ (process_shadow_delta exactHw gpioInit (singleDelta "blower" true)).2,
      ∀ kb ∈ pay,
        get_state (process_shadow_delta exactHw gpioInit (singleDelta "blower" true)).1 kb.1
          = .ok kb.2) :=
  ⟨by decide, (C1_reported_equals_readback exactHw true gpioInit).1
    (singleDelta "blower" true) (by decide)⟩

/-- C3: a delta mixing at least one invalid key with at least one valid
key (payload values well-formed dicts, keys unique) skips every invalid
key without aborting the batch: each valid key's change is applied to its
pin and verified by read-back, and exactly one reported batch is published
containing exactly the valid keys. -/
theorem C3_invalid_keys_skipped (we : WriteEffect) (s : GpioState)
    (delta : List (String × JValue))
    (hinv : ∃ kv ∈ delta, isValidKind kv.1 = false)
    (hval : ∃ kv ∈ delta, isValidKind kv.1 = true)
    (hwf : ∀ kv ∈ delta, isValidKind kv.1 = true → isObj kv.2 = true)
    (hnd : (delta.map Prod.fst).Nodup) :
    ∃ pay, (process_shadow_delta we s delta).2 = [pay]
      ∧ pay.map Prod.fst = (delta.map Prod.fst).filter (fun k => isValidKind k)
      ∧ (∀ kb ∈ pay, get_state (process_shadow_delta we s delta).1 kb.1 = .ok kb.2)
      ∧ (∀ kv ∈ delta, ∀ fields, kv.2 = JValue.obj fields → isValidKind kv.1 = true →
          (process_shadow_delta we s delta).1 (pinOf kv.1)
            = we (pinOf kv.1) (lvlOfFields fields)) := by
  have hkeys := processDeltaAux_keys we delta s [] hwf
  simp only [List.map_nil, List.nil_append] at hkeys
  have hfne : ((delta.map Prod.fst).filter (fun k => isValidKind k)).isEmpty = false := by
    obtain ⟨kv0, hkv0, hv0⟩ := hval
    have hmem : kv0.1 ∈ (delta.map Prod.fst).filter (fun k => isValidKind k) :=
      List.mem_filter.mpr ⟨List.mem_map_of_mem Prod.fst hkv0, hv0⟩
    cases hfil : (delta.map Prod.fst).filter (fun k => isValidKind k) with
    | nil => rw [hfil] at hmem; simp at hmem
    | cons a l => rfl
  rw [hfne] at hkeys
  simp only [Bool.false_eq_true, if_false] at hkeys
  cases hp : (process_shadow_delta we s delta).2 with
  | nil =>
    rw [process_shadow_delta] at hp
    rw [hp] at hkeys
    simp at hkeys
  | cons p rest =>
    cases rest with
    | cons q rest2 =>
      rw [process_shadow_delta] at hp
      rw [hp] at hkeys
      simp at hkeys
    | nil =>
      have hpm : p.map Prod.fst = (delta.map Prod.fst).filter (fun k => isValidKind k) := by
        rw [process_shadow_delta] at hp
        rw [hp] at hkeys
        simpa using hkeys
      refine ⟨p, rfl, hpm, ?_, ?_⟩
      · intro kb hkb
        refine processDeltaAux_readback we delta s [] (by simpa using hnd)
          (by intro x hx; simp at hx) p ?_ kb hkb
        rw [show (processDeltaAux we s delta []) = process_shadow_delta we s delta from rfl]
        rw [hp]
        exact List.mem_cons_self _ _
      · intro kv hkv fields hf hv
        exact processDeltaAux_applies we delta s [] hwf hnd kv hkv fields hf hv

/-- Witness for C3 at the batch `{foo: null, blower: {is_active: true}}`. -/
theorem C3_invalid_keys_skipped_witness :
    ∃ pay,
      (process_shadow_delta exactHw gpioInit
          [("foo", JValue.null),
           ("blower", JValue.obj [("is_active", JValue.bool true)])]).2 = [pay]
      ∧ pay.map Prod.fst
          = (([("foo", JValue.null),
               ("blower", JValue.obj [("is_active", JValue.bool true)])].map
                Prod.fst)).filter (fun k => isValidKind k)
      ∧ (∀ kb ∈ pay,
          get_state (process_shadow_delta exactHw gpioInit
              [("foo", JValue.null),
               ("blower", JValue.obj [("is_active", JValue.bool true)])]).1 kb.1
            = .ok kb.2)
      ∧ (∀ kv ∈ [("foo", JValue.null),
               ("blower", JValue.obj [("is_active", JValue.bool true)])],
          ∀ fields, kv.2 = JValue.obj fields → isValidKind kv.1 = true →
          (process_shadow_delta exactHw gpioInit
              [("foo", JValue.null),
               ("blower", JValue.obj [("is_active", JValue.bool true)])]).1 (pinOf kv.1)
            = exactHw (pinOf kv.1) (lvlOfFields fields)) :=
  C3_invalid_keys_skipped exactHw gpioInit
    [("foo", JValue.null), ("blower", JValue.obj [("is_active", JValue.bool true)])]
    ⟨("foo", JValue.null), List.mem_cons_self _ _, by decide⟩
    ⟨("blower", JValue.obj [("is_active", JValue.bool true)]),
      List.mem_cons_of_mem _ (List.mem_cons_self _ _), by decide⟩
    (by decide) (by decide)

/-- Witness for C9 at `vibrofeeder`, desired `true`, fault-free hardware. -/
theorem C9_idempotent_witness :
    isValidKind "vibrofeeder" = true ∧
      process_shadow_delta exactHw
          (process_shadow_delta exactHw gpioInit (singleDelta "vibrofeeder" true)).1
          (singleDelta "vibrofeeder" true)
        = process_shadow_delta exactHw gpioInit (singleDelta "vibrofeeder" true) :=
  ⟨by decide, C9_idempotent exactHw gpioInit "vibrofeeder" true (by decide)⟩

/-- C5 counterexample: the claim says a malformed (non-dict) payload value
defaults to `false` and the remaining keys are still processed.  In the
code, `desired_state.get` on the non-dict value raises `AttributeError`,
caught by the method's `try`: the batch `{blower: "on", vibrofeeder:
{is_active: true}}` publishes nothing and leaves `vibrofeeder`'s pin 27
untouched (HIGH = OFF) instead of applying `true`.  Moreover a present but
non-boolean `is_active` is used by Python truthiness, not defaulted: the
non-empty string `"low"` drives pin 17 LOW (ON), where the claim's
defaulting would have left it OFF. -/
theorem C5_counterexample :
    (process_shadow_delta exactHw gpioInit
        [("blower", JValue.str "on"),
         ("vibrofeeder", JValue.obj [("is_active", JValue.bool true)])]).2 = []
    ∧ (process_shadow_delta exactHw gpioInit
        [("blower", JValue.str "on"),
         ("vibrofeeder", JValue.obj [("is_active", JValue.bool true)])]).1 27 = gpioHigh
    ∧ (process_shadow_delta exactHw gpioInit
        [("blower", JValue.obj [("is_active", JValue.str "low")])]).1 17 = gpioLow := by
  refine ⟨by decide, by decide, by decide⟩

/-- C5 (amended): for a valid key whose payload value is a dict, the
desired boolean is the Python truthiness of `payload.get('is_active',
False)` — `false` exactly when the field is absent or falsy — and the
remaining keys of the batch are still processed; but a valid key whose
payload value is not a dict aborts the entire batch (the raised
`AttributeError` is caught at the method boundary): the state is left as
it was and nothing is published. -/
theorem C5_extraction_amended (we : WriteEffect) (s : GpioState) (k : String)
    (rest : List (String × JValue)) (hk : isValidKind k = true) :
    (∀ fields, process_shadow_delta we s ((k, JValue.obj fields) :: rest)
        = processDeltaAux we (gpioOutput we (pinOf k) (lvlOfFields fields) s) rest
            [(k, we (pinOf k) (lvlOfFields fields) == gpioLow)]) ∧
    (∀ v, isObj v = false → process_shadow_delta we s ((k, v) :: rest) = (s, [])) := by
  constructor
  · intro fields
    show processDeltaAux we s ((k, JValue.obj fields) :: rest) [] = _
    rw [processDeltaAux_cons_obj we s k fields rest [] hk, gpioOutput_same,
      List.nil_append]
  · intro v hv
    exact processDeltaAux_cons_malformed we s k v rest [] hk hv

/-- Witness for C5 (amended) at `vibrofeeder` with an empty dict payload
(absent `is_active`, desired defaults to OFF) and a non-dict payload. -/
theorem C5_extraction_amended_witness :
    isValidKind "vibrofeeder" = true ∧
    process_shadow_delta exactHw gpioInit [("vibrofeeder", JValue.obj [])]
      = processDeltaAux exactHw
          (gpioOutput exactHw (pinOf "vibrofeeder") (lvlOfFields []) gpioInit) []
          [("vibrofeeder", exactHw (pinOf "vibrofeeder") (lvlOfFields []) == gpioLow)] ∧
    process_shadow_delta exactHw gpioInit [("vibrofeeder", JValue.num 3)]
      = (gpioInit, []) :=
  ⟨by decide,
   (C5_extraction_amended exactHw gpioInit "vibrofeeder" [] (by decide)).1 [],
   (C5_extraction_amended exactHw gpioInit "vibrofeeder" [] (by decide)).2
     (JValue.num 3) rfl⟩

/-- C4 counterexample: the claim says reconciliation is triggered exactly
for kinds present in BOTH the desired and reported sections with differing
values.  For `desired = {blower: {is_active: true}}` and an empty reported
section, `blower` is present only in desired (second conjunct), yet the
code hands it to the reconciler, because `None != True` in the comparison
`desired.get('is_active') != reported.get(kind, {}).get('is_active')`. -/
theorem C4_counterexample :
    (on_get_shadow_accepted exactHw gpioInit
        (some ⟨some [("blower", JValue.obj [("is_active", JValue.bool true)])],
               some []⟩)).2.2 = ["blower"]
    ∧ jlookup [] "blower" = none := by
  refine ⟨by decide, rfl⟩

/-- C4 (amended): a reconciliation cycle is triggered exactly for the
valid kinds present in the desired section whose `is_active` value
(Python `None` when absent) differs under Python `==` from the reported
section's `is_active` for that kind (`None` when the kind or the field is
absent, the whole reported section defaulting to the empty dict) — the
condition `desiredDiffers`; in particular the spec's example
`desired = {blower: true, vibrofeeder: false}`,
`reported = {blower: true, vibrofeeder: true}` reconciles only
`vibrofeeder`. -/
theorem C4_reconcile_condition (we : WriteEffect) (s : GpioState)
    (desired reported : List (String × JValue))
    (hdes : ∀ kv ∈ desired, isValidKind kv.1 = true → isObj kv.2 = true)
    (hrep : ∀ kv ∈ reported, isValidKind kv.1 = true → isObj kv.2 = true) :
    (on_get_shadow_accepted we s (some ⟨some desired, some reported⟩)).2.2
      = (desired.filter (desiredDiffers reported)).map Prod.fst
    ∧ (on_get_shadow_accepted exactHw gpioInit
        (some ⟨some exampleDesired, some exampleReported⟩)).2.2 = ["vibrofeeder"] := by
  constructor
  · cases desired with
    | nil => rfl
    | cons kv rest =>
      show (onGetAux we s (kv :: rest) reported).2.2 = _
      exact onGetAux_triggered we (kv :: rest) s reported hdes hrep
  · decide

/-- Witness for C4 (amended) at the spec's example document. -/
theorem C4_reconcile_condition_witness :
    (on_get_shadow_accepted exactHw gpioInit
        (some ⟨some exampleDesired, some exampleReported⟩)).2.2
      = (exampleDesired.filter (desiredDiffers exampleReported)).map Prod.fst
    ∧ (on_get_shadow_accepted exactHw gpioInit
        (some ⟨some exampleDesired, some exampleReported⟩)).2.2 = ["vibrofeeder"] :=
  C4_reconcile_condition exactHw gpioInit exampleDesired exampleReported
    (by decide) (by decide)

/-- C6 counterexample: when `client.start()` raises no exception but the
MQTT connection never succeeds, `start` still returns `True` after its
fixed 5-second sleep, so `app.py` sets `startup_complete = True` — the
readiness indicator is true although the startup synchronizer's step-1
hardware-state publish never happened. -/
theorem C6_counterexample :
    AppEvent.readySet ∈ startEvents true false false
      ∧ AppEvent.syncPublish ∉ startEvents true false false := by
  decide

/-- C6 (amended): the readiness indicator (`startup_complete`) becomes
true exactly when `start()` returns success (client started without
exception), independently of whether the step-1 hardware-state publish has
run; that publish happens exactly when the connection eventually succeeds,
possibly after — or never despite — readiness. -/
theorem C6_ready_amended :
    ∀ clientOk connEver connBeforeReturn,
      (AppEvent.readySet ∈ startEvents clientOk connEver connBeforeReturn
        ↔ clientOk = true)
      ∧ (AppEvent.syncPublish ∈ startEvents clientOk connEver connBeforeReturn
        ↔ (clientOk && connEver) = true) := by
  decide

/-- C7: the source takes no lock around the write-then-verify sequences,
so the delta path and the control path for the same kind CAN interleave
their write/read-back pairs.  Concretely, with fault-free hardware, delta
requests `blower` ON while the control path requests OFF; under the
schedule A-write, B-write, A-read, A-read, B-read the delta thread's own
write latches ON (second conjunct), yet both its read-backs — including
the verified value it publishes — observe OFF, the control thread's value:
the published result interleaves the two writers. -/
theorem C7_unserialized_interleaving :
    (runSched exactHw gpioInit (deltaKindOps "blower" true) (controlOps "blower" false)
        [true, false, true, true, false]).2
      = ([false, false], [false])
    ∧ exactHw (pinOf "blower") gpioLow = gpioLow := by
  refine ⟨by decide, rfl⟩

end AwsIot
